import Mathlib

/-!
Verification of the adaptive keyframe extraction pipeline
(`extract_keyframes_from_video` in `src/backend/app.py`, lines 243-423).

Modelling conventions:
* Python floats are modelled as exact fractions (`Frac`, an integer
  numerator with a positive integer denominator).  Every float constant of
  the source (0.1, 0.2, 0.3, 0.9, 2.0, 3.0) is an exact decimal, `fps` is an
  arbitrary fraction, and float rounding error is idealised away.
* The OpenCV / numpy primitives that the source calls but whose code lives
  in external libraries (`cv2.cvtColor`, `cv2.Canny`, `cv2.Laplacian(...).var()`,
  `np.mean`) are opaque parameters collected in `CvOps`.  `cv2.absdiff`
  followed by `np.sum` on same-shape arrays is elementwise absolute
  difference summed, modelled concretely by `absdiffSum` on flattened
  pixel lists.
* An opened video (`cv2.VideoCapture`) is modelled by `Video`: its reported
  fps, frame count, and a partial frame-reading map (`cap.read` at a given
  index may fail, in which case the source skips that index).
* Python `int()` truncates toward zero (`pyInt`), `range` is `pyRange`,
  and list indexing (with the negative-index wrap of Python) is `pyGet`.
-/

namespace VideoPipeline

/-- Exact fraction: numerator over a positive denominator.  This models the
float values of the source exactly, and all of its operations compute by
integer arithmetic. -/
structure Frac where
  num : ℤ
  den : ℤ
  den_pos : 0 < den

instance : OfNat Frac n := ⟨⟨(n : ℤ), 1, one_pos⟩⟩

def Frac.ofInt (n : ℤ) : Frac := ⟨n, 1, one_pos⟩

/-- The decimal n/10, used for the float constants 0.1, 0.2, 0.3, 0.9. -/
def tenths (n : ℤ) : Frac := ⟨n, 10, by norm_num⟩

instance : LT Frac := ⟨fun a b => a.num * b.den < b.num * a.den⟩
instance : LE Frac := ⟨fun a b => a.num * b.den ≤ b.num * a.den⟩

instance (a b : Frac) : Decidable (a < b) :=
  inferInstanceAs (Decidable (a.num * b.den < b.num * a.den))

instance (a b : Frac) : Decidable (a ≤ b) :=
  inferInstanceAs (Decidable (a.num * b.den ≤ b.num * a.den))

def Frac.add (a b : Frac) : Frac :=
  ⟨a.num * b.den + b.num * a.den, a.den * b.den, mul_pos a.den_pos b.den_pos⟩

def Frac.sub (a b : Frac) : Frac :=
  ⟨a.num * b.den - b.num * a.den, a.den * b.den, mul_pos a.den_pos b.den_pos⟩

def Frac.mul (a b : Frac) : Frac :=
  ⟨a.num * b.num, a.den * b.den, mul_pos a.den_pos b.den_pos⟩

instance : Add Frac := ⟨Frac.add⟩
instance : Sub Frac := ⟨Frac.sub⟩
instance : Mul Frac := ⟨Frac.mul⟩

theorem Frac.lt_def {a b : Frac} : a < b ↔ a.num * b.den < b.num * a.den := Iff.rfl

theorem Frac.le_def {a b : Frac} : a ≤ b ↔ a.num * b.den ≤ b.num * a.den := Iff.rfl

theorem Frac.le_refl (a : Frac) : a ≤ a := Int.le_refl _

theorem Frac.le_of_lt {a b : Frac} (h : a < b) : a ≤ b := Int.le_of_lt h

theorem Frac.not_lt {a b : Frac} : ¬ a < b ↔ b ≤ a := Int.not_lt

theorem Frac.lt_irrefl (a : Frac) : ¬ a < a := Int.lt_irrefl _

theorem Frac.le_trans {a b c : Frac} (h1 : a ≤ b) (h2 : b ≤ c) : a ≤ c := by
  have g1 : a.num * b.den ≤ b.num * a.den := h1
  have g2 : b.num * c.den ≤ c.num * b.den := h2
  show a.num * c.den ≤ c.num * a.den
  have h3 : a.num * c.den * b.den ≤ c.num * a.den * b.den := by
    nlinarith [mul_le_mul_of_nonneg_right g1 c.den_pos.le,
      mul_le_mul_of_nonneg_right g2 a.den_pos.le, b.den_pos]
  exact le_of_mul_le_mul_right h3 b.den_pos

theorem Frac.lt_of_le_of_lt {a b c : Frac} (h1 : a ≤ b) (h2 : b < c) : a < c := by
  have g1 : a.num * b.den ≤ b.num * a.den := h1
  have g2 : b.num * c.den < c.num * b.den := h2
  show a.num * c.den < c.num * a.den
  have h3 : a.num * c.den * b.den < c.num * a.den * b.den := by
    nlinarith [mul_le_mul_of_nonneg_right g1 c.den_pos.le,
      mul_lt_mul_of_pos_right g2 a.den_pos, b.den_pos]
  exact lt_of_mul_lt_mul_right h3 b.den_pos.le

theorem Frac.lt_of_lt_of_le {a b c : Frac} (h1 : a < b) (h2 : b ≤ c) : a < c := by
  have g1 : a.num * b.den < b.num * a.den := h1
  have g2 : b.num * c.den ≤ c.num * b.den := h2
  show a.num * c.den < c.num * a.den
  have h3 : a.num * c.den * b.den < c.num * a.den * b.den := by
    nlinarith [mul_lt_mul_of_pos_right g1 c.den_pos,
      mul_le_mul_of_nonneg_right g2 a.den_pos.le, b.den_pos]
  exact lt_of_mul_lt_mul_right h3 b.den_pos.le

theorem Frac.num_pos_of_zero_lt {a : Frac} (h : (0 : Frac) < a) : 0 < a.num := by
  have h2 : (0 : ℤ) * a.den < a.num * 1 := h
  omega

theorem Frac.num_nonneg_of_zero_le {a : Frac} (h : (0 : Frac) ≤ a) : 0 ≤ a.num := by
  have h2 : (0 : ℤ) * a.den ≤ a.num * 1 := h
  omega

/-- Python `int(q)`: truncation toward zero. -/
def pyInt (q : Frac) : ℤ :=
  if q.num < 0 then -((q.num.natAbs / q.den.toNat : ℕ) : ℤ)
  else ((q.num.toNat / q.den.toNat : ℕ) : ℤ)

theorem pyInt_nonneg {q : Frac} (h : 0 ≤ q.num) : 0 ≤ pyInt q := by
  unfold pyInt
  rw [if_neg (by omega)]
  exact Int.ofNat_nonneg _

/-- Python `range(a, b)` over integers. -/
def pyRange (a b : ℤ) : List ℤ := (List.range (b - a).toNat).map (fun k : ℕ => a + (k : ℤ))

theorem mem_pyRange {a b si : ℤ} : si ∈ pyRange a b ↔ a ≤ si ∧ si < b := by
  simp only [pyRange, List.mem_map, List.mem_range]
  constructor
  · rintro ⟨k, hk, rfl⟩
    constructor
    · omega
    · omega
  · rintro ⟨h1, h2⟩
    exact ⟨(si - a).toNat, by omega, by omega⟩

/-- Python list indexing `l[i]` (with the negative-index wrap of Python;
out-of-range access, which never occurs in the modelled code paths, yields
the default). -/
def pyGet {α : Type} (l : List α) (i : ℤ) (d : α) : α :=
  if 0 ≤ i then l.getD i.toNat d else l.getD ((l.length : ℤ) + i).toNat d

/-- Modelled from the spec: the spec describes the search offsets as
`round(0.30 × fps)` and `round(0.20 × fps)`.  Standard rounding of an exact
fraction to the nearest integer (half rounds up), used only on the spec side
for comparison with the code, which uses `int()` truncation. -/
def roundNearest (q : Frac) : ℤ := Int.fdiv (q + ⟨1, 2, two_pos⟩).num (q + ⟨1, 2, two_pos⟩).den

/-- A decoded frame: the flattened sequence of pixel/channel values of a
numpy array (uint8 values; absolute differences and sums never overflow in
numpy because `np.sum` widens, so plain naturals are faithful). -/
abbrev Frame := List ℕ

/-- The external OpenCV / numpy primitives used by the source, left opaque:
their implementations are library code, not code of this repository.
`canny` receives the two thresholds (the source passes 50 and 150). -/
structure CvOps where
  gray : Frame → Frame
  canny : ℕ → ℕ → Frame → Frame
  lapVar : Frame → Frac
  mean : Frame → Frac

/-- An opened `cv2.VideoCapture`: reported fps and frame count, and the
partial per-index frame read (`cap.set(CAP_PROP_POS_FRAMES, i); cap.read()`),
which may fail for an index (`ret == False`), in which case the source skips
that index.  `isOpened` models `cap.isOpened()`. -/
structure Video where
  isOpened : Bool
  fps : Frac
  total_frames : ℕ
  read_frame : ℤ → Option Frame

inductive VideoError
  | openFailed
  | tooShort
  | notEnoughFrames
deriving DecidableEq

/-- Line 267: `duration = total_frames / fps if fps > 0 else 3.0`. -/
def duration (v : Video) : Frac :=
  if h : (0 : Frac) < v.fps then
    ⟨(v.total_frames : ℤ) * v.fps.den, v.fps.num, Frac.num_pos_of_zero_lt h⟩
  else 3

/-- Line 282: `start_frame = int(analysis_start * fps)` with `analysis_start = 0.2`. -/
def start_frame (v : Video) : ℤ := pyInt (tenths 2 * v.fps)

/-- Line 283: `end_frame = int(analysis_end * fps)` with
`analysis_end = duration - 0.3`. -/
def end_frame (v : Video) : ℤ := pyInt ((duration v - tenths 3) * v.fps)

def defaultEntry : ℤ × Frame := (0, [])

/-- Lines 288-293: materialize the frames of the analysis window.  For each
index in `range(start_frame, end_frame)` the source reads the frame and, on
success (`ret`), appends the pair `(frame_idx, frame)`. -/
def frames_data (v : Video) : List (ℤ × Frame) :=
  (pyRange (start_frame v) (end_frame v)).filterMap
    (fun idx => (v.read_frame idx).map (fun f => (idx, f)))

/-- Elementwise `np.sum(cv2.absdiff(a, b))` on same-shape flattened arrays. -/
def absdiffSum (a b : Frame) : ℕ :=
  (List.zipWith (fun x y : ℕ => max x y - min x y) a b).sum

/-- Lines 302-326: the combined motion score of interior position `i`:
raw pixel absolute differences against both neighbors plus absolute
differences of the Canny(50,150) edge maps of the grayscale conversions. -/
def combined_score (ops : CvOps) (fd : List (ℤ × Frame)) (i : ℕ) : ℕ :=
  absdiffSum (fd.getD (i - 1) defaultEntry).2 (fd.getD i defaultEntry).2
    + absdiffSum (fd.getD i defaultEntry).2 (fd.getD (i + 1) defaultEntry).2
    + absdiffSum (ops.canny 50 150 (ops.gray (fd.getD (i - 1) defaultEntry).2))
        (ops.canny 50 150 (ops.gray (fd.getD i defaultEntry).2))
    + absdiffSum (ops.canny 50 150 (ops.gray (fd.getD i defaultEntry).2))
        (ops.canny 50 150 (ops.gray (fd.getD (i + 1) defaultEntry).2))

/-- Lines 301-327: one `(i, combined_score, frames_data[i][0])` triple per
interior position, `for i in range(1, len(frames_data) - 1)`. -/
def motion_scores (ops : CvOps) (fd : List (ℤ × Frame)) : List (ℕ × ℕ × ℤ) :=
  (List.range' 1 (fd.length - 1 - 1)).map
    (fun i => (i, combined_score ops fd i, (fd.getD i defaultEntry).1))

def scoreOf (t : ℕ × ℕ × ℤ) : ℕ := t.2.1

/-- Stable insertion of an element into a descending-sorted list: the new
element (earlier in the original list) goes before every element with a key
not greater than its own.  `insertDesc` and `sortDesc` together implement
the unique stable descending order, which is what Python
`list.sort(key=lambda x: x[1], reverse=True)` produces at line 330. -/
def insertDesc (x : ℕ × ℕ × ℤ) : List (ℕ × ℕ × ℤ) → List (ℕ × ℕ × ℤ)
  | [] => [x]
  | y :: ys => if scoreOf x < scoreOf y then y :: insertDesc x ys else x :: y :: ys

def sortDesc : List (ℕ × ℕ × ℤ) → List (ℕ × ℕ × ℤ)
  | [] => []
  | x :: xs => insertDesc x (sortDesc xs)

def defaultScore : ℕ × ℕ × ℤ := (0, 0, 0)

/-- Lines 330-332: `motion_scores.sort(...); motion_scores[0]`. -/
def peakEntry (scores : List (ℕ × ℕ × ℤ)) : ℕ × ℕ × ℤ :=
  (sortDesc scores).headD defaultScore

/-- Line 338: `f1_idx = max(0, int(len(frames_data) * 0.1))`. -/
def f1_idx (len : ℕ) : ℤ := max 0 (pyInt (Frac.ofInt (len : ℤ) * tenths 1))

/-- Lines 342-343: `f2_idx = max(0, peak - int(0.3 * fps))` then
`f2_idx = min(f2_idx, len(frames_data) - 1)`. -/
def f2_idx (fps : Frac) (len peak : ℕ) : ℤ :=
  min (max 0 ((peak : ℤ) - pyInt (tenths 3 * fps))) ((len : ℤ) - 1)

/-- Line 350: `f4_idx = min(len(frames_data) - 1, peak + int(0.3 * fps))`. -/
def f4_idx (fps : Frac) (len peak : ℕ) : ℤ :=
  min ((len : ℤ) - 1) ((peak : ℤ) + pyInt (tenths 3 * fps))

/-- Line 354: `f5_idx = min(len(frames_data) - 1, int(len(frames_data) * 0.9))`. -/
def f5_idx (len : ℕ) : ℤ := min ((len : ℤ) - 1) (pyInt (Frac.ofInt (len : ℤ) * tenths 9))

def peak_motion_idx (ops : CvOps) (v : Video) : ℕ :=
  (peakEntry (motion_scores ops (frames_data v))).1

/-- The five fixed roles of the output frames. -/
inductive Role
  | F1
  | F2
  | F3
  | F4
  | F5
deriving DecidableEq

def role_order : List Role := [Role.F1, Role.F2, Role.F3, Role.F4, Role.F5]

def roleIndex : Role → ℕ
  | .F1 => 0
  | .F2 => 1
  | .F3 => 2
  | .F4 => 3
  | .F5 => 4

/-- The window position selected for each role (lines 338-354); the quality
pass at lines 363-409 re-derives exactly these indices through its
conditional chain at lines 389-390. -/
def roleTarget (ops : CvOps) (v : Video) : Role → ℤ
  | .F1 => f1_idx (frames_data v).length
  | .F2 => f2_idx v.fps (frames_data v).length (peak_motion_idx ops v)
  | .F3 => (peak_motion_idx ops v : ℤ)
  | .F4 => f4_idx v.fps (frames_data v).length (peak_motion_idx ops v)
  | .F5 => f5_idx (frames_data v).length

/-- Line 368: `sharpness = cv2.Laplacian(gray, cv2.CV_64F).var()` on the
grayscale conversion. -/
def sharpness (ops : CvOps) (f : Frame) : Frac := ops.lapVar (ops.gray f)

/-- Line 371: `brightness = np.mean(gray)`. -/
def brightness (ops : CvOps) (f : Frame) : Frac := ops.mean (ops.gray f)

/-- Line 381: the replacement-triggering condition
`sharpness < 100 or brightness < 30 or brightness > 220`. -/
def qualityPoor (ops : CvOps) (f : Frame) : Prop :=
  sharpness ops f < 100 ∨ brightness ops f < 30 ∨ 220 < brightness ops f

/-- Lines 399-400: the candidate acceptance condition
`search_sharpness >= 100 and 30 <= search_brightness <= 220`. -/
def qualityPassed (ops : CvOps) (f : Frame) : Prop :=
  100 ≤ sharpness ops f ∧ 30 ≤ brightness ops f ∧ brightness ops f ≤ 220

instance (ops : CvOps) (f : Frame) : Decidable (qualityPoor ops f) := by
  unfold qualityPoor
  exact inferInstance

instance (ops : CvOps) (f : Frame) : Decidable (qualityPassed ops f) := by
  unfold qualityPassed
  exact inferInstance

theorem not_qualityPoor_iff {ops : CvOps} {f : Frame} :
    ¬ qualityPoor ops f ↔ qualityPassed ops f := by
  unfold qualityPoor qualityPassed
  push_neg
  constructor
  · rintro ⟨h1, h2, h3⟩
    exact ⟨Frac.not_lt.mp h1, Frac.not_lt.mp h2, Frac.not_lt.mp h3⟩
  · rintro ⟨h1, h2, h3⟩
    exact ⟨Frac.not_lt.mpr h1, Frac.not_lt.mpr h2, Frac.not_lt.mpr h3⟩

/-- The score `sharpness + brightness` used by the local search
(lines 387 and 401). -/
def sharpBright (ops : CvOps) (f : Frame) : Frac :=
  sharpness ops f + brightness ops f

/-- Line 385: `search_range = int(0.2 * fps)`. -/
def search_range (fps : Frac) : ℤ := pyInt (tenths 2 * fps)

/-- Line 389: `start_search = max(0, frames_data[target][0] - search_range)`.
Note the source centers the search on the absolute frame index
`frames_data[target][0]`, not on the window position `target`. -/
def start_search (fd : List (ℤ × Frame)) (fps : Frac) (t : ℤ) : ℤ :=
  max 0 ((pyGet fd t defaultEntry).1 - search_range fps)

/-- Line 390: `end_search = min(len(frames_data) - 1, frames_data[target][0] + search_range)`. -/
def end_search (fd : List (ℤ × Frame)) (fps : Frac) (t : ℤ) : ℤ :=
  min ((fd.length : ℤ) - 1) ((pyGet fd t defaultEntry).1 + search_range fps)

/-- Lines 392-404: one iteration of the candidate search, carrying
`(best_frame, best_score)`.  The `if search_idx < len(frames_data)` guard of
line 393 is kept. -/
def searchStep (ops : CvOps) (fd : List (ℤ × Frame)) (best : Frame × Frac) (si : ℤ) :
    Frame × Frac :=
  if si < (fd.length : ℤ) then
    if qualityPassed ops (pyGet fd si defaultEntry).2 then
      if best.2 < sharpBright ops (pyGet fd si defaultEntry).2 then
        ((pyGet fd si defaultEntry).2, sharpBright ops (pyGet fd si defaultEntry).2)
      else best
    else best
  else best

/-- Lines 363-409, for one role whose window position is `t`: if the frame
fails the thresholds, fold the search over
`range(start_search, end_search + 1)` starting from
`(frame, sharpness + brightness)` and return the best frame; otherwise
return the frame unchanged. -/
def qualityAdjust (ops : CvOps) (fd : List (ℤ × Frame)) (fps : Frac) (t : ℤ) : Frame :=
  if qualityPoor ops (pyGet fd t defaultEntry).2 then
    ((pyRange (start_search fd fps t) (end_search fd fps t + 1)).foldl (searchStep ops fd)
      ((pyGet fd t defaultEntry).2, sharpBright ops (pyGet fd t defaultEntry).2)).1
  else (pyGet fd t defaultEntry).2

/-- Lines 243-417: the whole pipeline on an (attempted) video capture.
Raised exceptions become typed errors; the success value is the
quality-checked frame list in the order F1, F2, F3, F4, F5 (line 417). -/
def extract_keyframes_from_video (ops : CvOps) (v : Video) : Except VideoError (List Frame) :=
  if v.isOpened = false then .error .openFailed
  else if duration v < 2 then .error .tooShort
  else if (frames_data v).length < 5 then .error .notEnoughFrames
  else .ok ((role_order.map (roleTarget ops v)).map (qualityAdjust ops (frames_data v) v.fps))

/-- Control-flow exits of the try-body (lines 253-417): the three raise
sites and the normal return. -/
inductive ExitPath
  | openFail
  | tooShort
  | notEnoughFrames
  | success
deriving DecidableEq

def exitPath (v : Video) : ExitPath :=
  if v.isOpened = false then .openFail
  else if duration v < 2 then .tooShort
  else if (frames_data v).length < 5 then .notEnoughFrames
  else .success

/-- Whether the temporary decode file still exists when the try-body is
left: the file is created unconditionally at lines 255-257, and the only
unlink inside the body is line 414, reached exactly on the success path
just before the return. -/
def tempFileAfterBody (v : Video) : Bool :=
  match exitPath v with
  | .success => false
  | _ => true

/-- Whether the temporary decode file still exists when control leaves the
whole invocation: on an exception, the handler at lines 419-422 runs
`if os.path.exists(temp_video_path): os.unlink(temp_video_path)`. -/
def tempFileAfterCall (v : Video) : Bool :=
  match exitPath v with
  | .success => tempFileAfterBody v
  | _ => if tempFileAfterBody v = true then false else tempFileAfterBody v

end VideoPipeline


namespace VideoPipeline

/-! Concrete instances used by witnesses and counterexamples. -/

/-- Benign opaque primitives: every frame is sharp (Laplacian variance 150)
and well exposed (mean 100). -/
def wOps : CvOps :=
  { gray := id, canny := fun _ _ g => g, lapVar := fun _ => 150, mean := fun _ => 100 }

/-- A 3-second, 3 fps video whose frame at index i is the one-pixel frame [i]. -/
def wVid : Video :=
  { isOpened := true, fps := 3, total_frames := 9, read_frame := fun i => some [i.toNat] }

/-- A 1-second video (5 frames at 5 fps): shorter than the 2-second floor. -/
def vShort : Video :=
  { isOpened := true, fps := 5, total_frames := 5, read_frame := fun i => some [i.toNat] }

/-- A video of exactly 2.0 seconds (6 frames at 3 fps) whose analysis window
materializes exactly 5 frames. -/
def vFive : Video :=
  { isOpened := true, fps := 3, total_frames := 6, read_frame := fun i => some [i.toNat] }

/-- A video whose container reports fps = 0. -/
def vZero : Video :=
  { isOpened := true, fps := ⟨0, 1, one_pos⟩, total_frames := 100,
    read_frame := fun i => some [i.toNat] }

def wScores : List (ℕ × ℕ × ℤ) := [(1, 5, 10), (2, 9, 11), (3, 9, 12)]

def wFd : List (ℤ × Frame) := [(0, [0]), (1, [1]), (2, [2]), (3, [3]), (4, [4])]

/-! Peak selection: the head of the stable descending sort is the first
occurrence of the maximal score. -/

theorem insertDesc_length (x : ℕ × ℕ × ℤ) (l : List (ℕ × ℕ × ℤ)) :
    (insertDesc x l).length = l.length + 1 := by
  induction l with
  | nil => rfl
  | cons y ys ih =>
    simp only [insertDesc]
    split
    · simp [ih]
    · simp

theorem sortDesc_length (l : List (ℕ × ℕ × ℤ)) : (sortDesc l).length = l.length := by
  induction l with
  | nil => rfl
  | cons x xs ih => simp [sortDesc, insertDesc_length, ih]

/-- The first occurrence of the maximal score in `x :: xs` (the element kept
by the later characterization): `x` wins every tie against later elements. -/
def firstMax (x : ℕ × ℕ × ℤ) : List (ℕ × ℕ × ℤ) → ℕ × ℕ × ℤ
  | [] => x
  | y :: ys => if scoreOf x < scoreOf (firstMax y ys) then firstMax y ys else x

theorem sortDesc_cons_headD (x : ℕ × ℕ × ℤ) (xs : List (ℕ × ℕ × ℤ)) (d : ℕ × ℕ × ℤ) :
    (sortDesc (x :: xs)).headD d = firstMax x xs := by
  induction xs generalizing x with
  | nil => rfl
  | cons y ys ih =>
    have hlen : (sortDesc (y :: ys)).length = (y :: ys).length := sortDesc_length _
    cases hs : sortDesc (y :: ys) with
    | nil => rw [hs] at hlen; simp at hlen
    | cons m rest =>
      have hm : m = firstMax y ys := by
        have h2 := ih y
        rw [hs] at h2
        simpa using h2
      show (insertDesc x (sortDesc (y :: ys))).headD d = firstMax x (y :: ys)
      rw [hs]
      simp only [insertDesc, firstMax, ← hm]
      by_cases hc : scoreOf x < scoreOf m
      · rw [if_pos hc, if_pos hc]
        simp
      · rw [if_neg hc, if_neg hc]
        simp

theorem firstMax_spec (x : ℕ × ℕ × ℤ) (xs : List (ℕ × ℕ × ℤ)) :
    ∃ i, i < (x :: xs).length ∧ firstMax x xs = (x :: xs).getD i defaultScore ∧
      (∀ j, j < (x :: xs).length →
        scoreOf ((x :: xs).getD j defaultScore) ≤ scoreOf (firstMax x xs)) ∧
      (∀ j, j < i → scoreOf ((x :: xs).getD j defaultScore) < scoreOf (firstMax x xs)) := by
  induction xs generalizing x with
  | nil =>
    refine ⟨0, by simp, by simp [firstMax], ?_, ?_⟩
    · intro j hj
      have hj0 : j = 0 := by simpa using hj
      subst hj0
      simp [firstMax]
    · intro j hj
      omega
  | cons y ys ih =>
    obtain ⟨i, hi, heq, hmax, hstrict⟩ := ih y
    by_cases hc : scoreOf x < scoreOf (firstMax y ys)
    · refine ⟨i + 1, by simpa using hi, ?_, ?_, ?_⟩
      · simp only [firstMax]
        rw [if_pos hc, List.getD_cons_succ]
        exact heq
      · intro j hj
        simp only [firstMax]
        rw [if_pos hc]
        cases j with
        | zero =>
          rw [List.getD_cons_zero]
          omega
        | succ j2 =>
          rw [List.getD_cons_succ]
          exact hmax j2 (by simpa using hj)
      · intro j hj
        simp only [firstMax]
        rw [if_pos hc]
        cases j with
        | zero =>
          rw [List.getD_cons_zero]
          exact hc
        | succ j2 =>
          rw [List.getD_cons_succ]
          exact hstrict j2 (by omega)
    · refine ⟨0, by simp, ?_, ?_, ?_⟩
      · simp only [firstMax]
        rw [if_neg hc, List.getD_cons_zero]
      · intro j hj
        simp only [firstMax]
        rw [if_neg hc]
        cases j with
        | zero =>
          rw [List.getD_cons_zero]
        | succ j2 =>
          rw [List.getD_cons_succ]
          have hle := hmax j2 (by simpa using hj)
          omega
      · intro j hj
        omega

/-- C4: for every non-empty score list, the entry selected at lines 330-332
(stable descending sort, then first element) sits at some position i whose
score is maximal, and every position before i has a strictly smaller score:
the argmax with ties broken by lowest position. -/
theorem peak_is_first_argmax (scores : List (ℕ × ℕ × ℤ)) (h : scores ≠ []) :
    ∃ i, i < scores.length ∧ peakEntry scores = scores.getD i defaultScore ∧
      (∀ j, j < scores.length →
        scoreOf (scores.getD j defaultScore) ≤ scoreOf (peakEntry scores)) ∧
      (∀ j, j < i → scoreOf (scores.getD j defaultScore) < scoreOf (peakEntry scores)) := by
  obtain ⟨x, xs, rfl⟩ := List.exists_cons_of_ne_nil h
  unfold peakEntry
  rw [sortDesc_cons_headD]
  exact firstMax_spec x xs

/-- Witness for C4 at a concrete score list with a tie at the maximum. -/
theorem peak_is_first_argmax_w :
    ∃ i, i < wScores.length ∧ peakEntry wScores = wScores.getD i defaultScore ∧
      (∀ j, j < wScores.length →
        scoreOf (wScores.getD j defaultScore) ≤ scoreOf (peakEntry wScores)) ∧
      (∀ j, j < i → scoreOf (wScores.getD j defaultScore) < scoreOf (peakEntry wScores)) :=
  peak_is_first_argmax wScores (by decide)

/-! Motion scoring. -/

theorem motion_scores_length (ops : CvOps) (fd : List (ℤ × Frame)) :
    (motion_scores ops fd).length = fd.length - 1 - 1 := by
  simp [motion_scores]

/-- C6: on a materialized window of length at least 5, the motion-scoring
loop (lines 301-327) produces exactly len - 2 scores, the (i-1)-th being the
triple of the interior position i, the sum of the raw absolute pixel
differences of frame i against both neighbors plus the absolute differences
of the Canny(50,150) edge maps of the grayscale conversions, and the
absolute frame index; the stage is a total function (it never fails). -/
theorem motion_scores_contract (ops : CvOps) (fd : List (ℤ × Frame)) (h : 5 ≤ fd.length) :
    (motion_scores ops fd).length = fd.length - 2 ∧
    ∀ i, 1 ≤ i → i ≤ fd.length - 2 →
      (motion_scores ops fd).getD (i - 1) defaultScore =
        (i,
         absdiffSum (fd.getD (i - 1) defaultEntry).2 (fd.getD i defaultEntry).2
           + absdiffSum (fd.getD i defaultEntry).2 (fd.getD (i + 1) defaultEntry).2
           + absdiffSum (ops.canny 50 150 (ops.gray (fd.getD (i - 1) defaultEntry).2))
               (ops.canny 50 150 (ops.gray (fd.getD i defaultEntry).2))
           + absdiffSum (ops.canny 50 150 (ops.gray (fd.getD i defaultEntry).2))
               (ops.canny 50 150 (ops.gray (fd.getD (i + 1) defaultEntry).2)),
         (fd.getD i defaultEntry).1) := by
  constructor
  · rw [motion_scores_length]
    omega
  · intro i h1 h2
    have hk : i - 1 < (motion_scores ops fd).length := by
      rw [motion_scores_length]
      omega
    unfold motion_scores
    rw [List.getD_eq_getElem _ _ (by simpa [motion_scores] using hk)]
    rw [List.getElem_map, List.getElem_range']
    have h3 : 1 + 1 * (i - 1) = i := by omega
    rw [h3]
    rfl

/-- Witness for C6 at a concrete 5-frame window. -/
theorem motion_scores_contract_w :
    (motion_scores wOps wFd).length = wFd.length - 2 ∧
    ∀ i, 1 ≤ i → i ≤ wFd.length - 2 →
      (motion_scores wOps wFd).getD (i - 1) defaultScore =
        (i,
         absdiffSum (wFd.getD (i - 1) defaultEntry).2 (wFd.getD i defaultEntry).2
           + absdiffSum (wFd.getD i defaultEntry).2 (wFd.getD (i + 1) defaultEntry).2
           + absdiffSum (wOps.canny 50 150 (wOps.gray (wFd.getD (i - 1) defaultEntry).2))
               (wOps.canny 50 150 (wOps.gray (wFd.getD i defaultEntry).2))
           + absdiffSum (wOps.canny 50 150 (wOps.gray (wFd.getD i defaultEntry).2))
               (wOps.canny 50 150 (wOps.gray (wFd.getD (i + 1) defaultEntry).2)),
         (wFd.getD i defaultEntry).1) :=
  motion_scores_contract wOps wFd (by decide)

end VideoPipeline

namespace VideoPipeline

/-! Error handling of the pipeline entry. -/

/-- C7: for an opened video, the pipeline raises the too-short error
(line 270-271) exactly when the computed duration — total_frames/fps when
the reported fps is positive, an assumed 3.0 s otherwise (line 267) — is
strictly below 2.0 s; a duration of exactly 2.0 s is not rejected. -/
theorem video_too_short_iff (ops : CvOps) (v : Video) (h1 : v.isOpened = true) :
    extract_keyframes_from_video ops v = .error .tooShort ↔ duration v < 2 := by
  unfold extract_keyframes_from_video
  rw [if_neg (by simp [h1])]
  by_cases hd : duration v < 2
  · simp [hd]
  · rw [if_neg hd]
    by_cases hl : (frames_data v).length < 5
    · simp [hl, hd]
    · simp [hl, hd]

/-- Witness for C7 at a 1-second video (which the pipeline rejects). -/
theorem video_too_short_iff_w :
    extract_keyframes_from_video wOps vShort = .error .tooShort ↔ duration vShort < 2 :=
  video_too_short_iff wOps vShort rfl

/-- C8: for an opened video of duration at least 2.0 s, the pipeline raises
the insufficient-frames error (lines 295-296) exactly when fewer than 5
frames were materialized in the analysis window, and with at least 5 such
frames it proceeds to a successful result. -/
theorem insufficient_frames_iff (ops : CvOps) (v : Video) (h1 : v.isOpened = true)
    (h2 : (2 : Frac) ≤ duration v) :
    (extract_keyframes_from_video ops v = .error .notEnoughFrames ↔
      (frames_data v).length < 5) ∧
    (5 ≤ (frames_data v).length → ∃ out, extract_keyframes_from_video ops v = .ok out) := by
  have hd : ¬ duration v < 2 := Frac.not_lt.mpr h2
  unfold extract_keyframes_from_video
  rw [if_neg (by simp [h1]), if_neg hd]
  constructor
  · by_cases hl : (frames_data v).length < 5
    · simp [hl]
    · simp [hl]
  · intro h5
    rw [if_neg (by omega)]
    exact ⟨_, rfl⟩

/-- Witness for C8 at the boundary: a video of exactly 2.0 s whose analysis
window materializes exactly 5 frames, so the pipeline succeeds. -/
theorem insufficient_frames_iff_w :
    (extract_keyframes_from_video wOps vFive = .error .notEnoughFrames ↔
      (frames_data vFive).length < 5) ∧
    (5 ≤ (frames_data vFive).length →
      ∃ out, extract_keyframes_from_video wOps vFive = .ok out) :=
  insufficient_frames_iff wOps vFive rfl (by decide)

/-- C10: an opened video whose container reports fps = 0 always fails with
the insufficient-frames error: the fallback duration 3.0 passes the 2.0 s
check, but converting the window bounds to frame indices with fps = 0 gives
an empty range, so no frame is materialized. -/
theorem fps_zero_always_insufficient (ops : CvOps) (v : Video) (h1 : v.isOpened = true)
    (h0 : v.fps.num = 0) :
    duration v = 3 ∧ frames_data v = [] ∧
      extract_keyframes_from_video ops v = .error .notEnoughFrames := by
  have hlt : ¬ (0 : Frac) < v.fps := by
    show ¬ ((0 : Frac).num * v.fps.den < v.fps.num * (0 : Frac).den)
    have hz : (0 : Frac).num = 0 := rfl
    rw [hz, h0]
    omega
  have hdur : duration v = 3 := by
    unfold duration
    rw [dif_neg hlt]
  have hsf : start_frame v = 0 := by
    unfold start_frame pyInt
    have hnum : (tenths 2 * v.fps).num = 0 := by
      show (2 : ℤ) * v.fps.num = 0
      rw [h0, mul_zero]
    rw [hnum]
    simp
  have hef : end_frame v = 0 := by
    unfold end_frame pyInt
    have hnum : ((duration v - tenths 3) * v.fps).num = 0 := by
      show (duration v - tenths 3).num * v.fps.num = 0
      rw [h0, mul_zero]
    rw [hnum]
    simp
  have hfd : frames_data v = [] := by
    unfold frames_data
    rw [hsf, hef]
    rfl
  refine ⟨hdur, hfd, ?_⟩
  unfold extract_keyframes_from_video
  rw [if_neg (by simp [h1])]
  rw [if_neg (by rw [hdur]; decide)]
  rw [hfd]
  simp

/-- Witness for C10 at a concrete fps = 0 video. -/
theorem fps_zero_always_insufficient_w :
    duration vZero = 3 ∧ frames_data vZero = [] ∧
      extract_keyframes_from_video wOps vZero = .error .notEnoughFrames :=
  fps_zero_always_insufficient wOps vZero rfl rfl

/-- C9: the temporary decode file created at lines 255-257 is gone on every
exit of the invocation: the success path unlinks it at line 414 before
returning, and every raise lands in the handler of lines 419-422, which
unlinks it when it still exists.  The second conjunct ties the exit-path
model to the pipeline function: the body exits successfully exactly when
the pipeline returns a result. -/
theorem temp_file_always_removed (ops : CvOps) (v : Video) :
    tempFileAfterCall v = false ∧
      (exitPath v = .success ↔ ∃ out, extract_keyframes_from_video ops v = .ok out) := by
  constructor
  · cases h : exitPath v <;> simp [tempFileAfterCall, tempFileAfterBody, h]
  · unfold exitPath extract_keyframes_from_video
    by_cases h1 : v.isOpened = false
    · simp [h1]
    · rw [if_neg h1, if_neg h1]
      by_cases h2 : duration v < 2
      · simp [h2]
      · rw [if_neg h2, if_neg h2]
        by_cases h3 : (frames_data v).length < 5
        · simp [h3]
        · simp [h3]

/-- C1: for an opened video with computed duration at least 2.0 s and at
least 5 materialized window frames, the pipeline succeeds and returns the
quality-checked frames of the five roles, in the fixed order F1, F2, F3,
F4, F5 (one frame per role, each role exactly once). -/
theorem extract_returns_five_role_frames (ops : CvOps) (v : Video) (h1 : v.isOpened = true)
    (h2 : (2 : Frac) ≤ duration v) (h3 : 5 ≤ (frames_data v).length) :
    extract_keyframes_from_video ops v =
      .ok ((role_order.map (roleTarget ops v)).map (qualityAdjust ops (frames_data v) v.fps)) ∧
    ((role_order.map (roleTarget ops v)).map (qualityAdjust ops (frames_data v) v.fps)).length = 5 ∧
    role_order = [Role.F1, Role.F2, Role.F3, Role.F4, Role.F5] ∧
    role_order.Nodup := by
  refine ⟨?_, by simp [role_order], rfl, by decide⟩
  unfold extract_keyframes_from_video
  rw [if_neg (by simp [h1]), if_neg (Frac.not_lt.mpr h2), if_neg (by omega)]

/-- Witness for C1 at a concrete 3-second video. -/
theorem extract_returns_five_role_frames_w :
    extract_keyframes_from_video wOps wVid =
      .ok ((role_order.map (roleTarget wOps wVid)).map
        (qualityAdjust wOps (frames_data wVid) wVid.fps)) ∧
    ((role_order.map (roleTarget wOps wVid)).map
      (qualityAdjust wOps (frames_data wVid) wVid.fps)).length = 5 ∧
    role_order = [Role.F1, Role.F2, Role.F3, Role.F4, Role.F5] ∧
    role_order.Nodup :=
  extract_returns_five_role_frames wOps wVid rfl (by decide) (by decide)

end VideoPipeline

namespace VideoPipeline

/-! The local quality search (lines 381-409). -/

theorem mem_search_lt_len {fd : List (ℤ × Frame)} {fps : Frac} {t si : ℤ}
    (h : si ∈ pyRange (start_search fd fps t) (end_search fd fps t + 1)) :
    si < (fd.length : ℤ) := by
  have h2 := mem_pyRange.mp h
  have h3 : end_search fd fps t ≤ (fd.length : ℤ) - 1 := by
    unfold end_search
    exact min_le_left _ _
  omega

/-- Invariant of the candidate-search fold: the best score never decreases,
ends at least as high as the score of every passing candidate seen, and the
final state is either the initial one or some passing candidate whose score
strictly exceeds the initial score. -/
theorem foldl_searchStep_inv (ops : CvOps) (fd : List (ℤ × Frame)) (l : List ℤ)
    (b : Frame × Frac) :
    b.2 ≤ (l.foldl (searchStep ops fd) b).2 ∧
    (∀ si ∈ l, si < (fd.length : ℤ) → qualityPassed ops (pyGet fd si defaultEntry).2 →
      sharpBright ops (pyGet fd si defaultEntry).2 ≤ (l.foldl (searchStep ops fd) b).2) ∧
    (l.foldl (searchStep ops fd) b = b ∨
      ∃ si ∈ l, si < (fd.length : ℤ) ∧ qualityPassed ops (pyGet fd si defaultEntry).2 ∧
        b.2 < sharpBright ops (pyGet fd si defaultEntry).2 ∧
        l.foldl (searchStep ops fd) b =
          ((pyGet fd si defaultEntry).2, sharpBright ops (pyGet fd si defaultEntry).2)) := by
  induction l generalizing b with
  | nil =>
    refine ⟨Frac.le_refl _, ?_, Or.inl rfl⟩
    intro si hsi
    simp at hsi
  | cons a l ih =>
    obtain ⟨ih1, ih2, ih3⟩ := ih (searchStep ops fd b a)
    have hstep : b.2 ≤ (searchStep ops fd b a).2 ∧
        (searchStep ops fd b a = b ∨
          (a < (fd.length : ℤ) ∧ qualityPassed ops (pyGet fd a defaultEntry).2 ∧
            b.2 < sharpBright ops (pyGet fd a defaultEntry).2 ∧
            searchStep ops fd b a =
              ((pyGet fd a defaultEntry).2, sharpBright ops (pyGet fd a defaultEntry).2))) := by
      unfold searchStep
      by_cases hg : a < (fd.length : ℤ)
      · rw [if_pos hg]
        by_cases hp : qualityPassed ops (pyGet fd a defaultEntry).2
        · rw [if_pos hp]
          by_cases hb : b.2 < sharpBright ops (pyGet fd a defaultEntry).2
          · rw [if_pos hb]
            exact ⟨Frac.le_of_lt hb, Or.inr ⟨hg, hp, hb, rfl⟩⟩
          · rw [if_neg hb]
            exact ⟨Frac.le_refl _, Or.inl rfl⟩
        · rw [if_neg hp]
          exact ⟨Frac.le_refl _, Or.inl rfl⟩
      · rw [if_neg hg]
        exact ⟨Frac.le_refl _, Or.inl rfl⟩
    simp only [List.foldl_cons]
    refine ⟨Frac.le_trans hstep.1 ih1, ?_, ?_⟩
    · intro sj hsj hg hp
      rcases List.mem_cons.mp hsj with h | hmem
      · rw [h] at hg hp ⊢
        by_cases hb : b.2 < sharpBright ops (pyGet fd a defaultEntry).2
        · have he : searchStep ops fd b a =
              ((pyGet fd a defaultEntry).2, sharpBright ops (pyGet fd a defaultEntry).2) := by
            unfold searchStep
            rw [if_pos hg, if_pos hp, if_pos hb]
          have h5 : (searchStep ops fd b a).2 =
              sharpBright ops (pyGet fd a defaultEntry).2 := by
            rw [he]
          rw [← h5]
          exact ih1
        · exact Frac.le_trans (Frac.le_trans (Frac.not_lt.mp hb) hstep.1) ih1
      · exact ih2 sj hmem hg hp
    · rcases ih3 with heq | ⟨sj, hmem, hg, hp, hb, he⟩
      · rcases hstep.2 with hb2 | ⟨hg, hp, hb, he⟩
        · exact Or.inl (heq.trans hb2)
        · exact Or.inr ⟨a, List.mem_cons_self a l, hg, hp, hb, heq.trans he⟩
      · exact Or.inr ⟨sj, List.mem_cons_of_mem a hmem, hg, hp,
          Frac.lt_of_le_of_lt hstep.1 hb, he⟩

/-- C3 (amended): per role, the quality pass either keeps a frame that was
not poor; or keeps the poor original because no candidate in the searched
range passes both thresholds with a sharpness+brightness score strictly
above the original score; or returns some passing candidate of the searched
range whose score strictly exceeds the original score and is maximal among
all passing candidates of the range. -/
theorem quality_search_characterization (ops : CvOps) (fd : List (ℤ × Frame)) (fps : Frac)
    (t : ℤ) :
    (¬ qualityPoor ops (pyGet fd t defaultEntry).2 ∧
      qualityAdjust ops fd fps t = (pyGet fd t defaultEntry).2)
    ∨ (qualityPoor ops (pyGet fd t defaultEntry).2 ∧
        (∀ si ∈ pyRange (start_search fd fps t) (end_search fd fps t + 1),
          qualityPassed ops (pyGet fd si defaultEntry).2 →
          sharpBright ops (pyGet fd si defaultEntry).2 ≤
            sharpBright ops (pyGet fd t defaultEntry).2) ∧
        qualityAdjust ops fd fps t = (pyGet fd t defaultEntry).2)
    ∨ (qualityPoor ops (pyGet fd t defaultEntry).2 ∧
        ∃ si ∈ pyRange (start_search fd fps t) (end_search fd fps t + 1),
          qualityPassed ops (pyGet fd si defaultEntry).2 ∧
          sharpBright ops (pyGet fd t defaultEntry).2 <
            sharpBright ops (pyGet fd si defaultEntry).2 ∧
          qualityAdjust ops fd fps t = (pyGet fd si defaultEntry).2 ∧
          (∀ sj ∈ pyRange (start_search fd fps t) (end_search fd fps t + 1),
            qualityPassed ops (pyGet fd sj defaultEntry).2 →
            sharpBright ops (pyGet fd sj defaultEntry).2 ≤
              sharpBright ops (pyGet fd si defaultEntry).2)) := by
  by_cases hpoor : qualityPoor ops (pyGet fd t defaultEntry).2
  case neg =>
    refine Or.inl ⟨hpoor, ?_⟩
    unfold qualityAdjust
    rw [if_neg hpoor]
  case pos =>
    obtain ⟨inv1, inv2, inv3⟩ := foldl_searchStep_inv ops fd
      (pyRange (start_search fd fps t) (end_search fd fps t + 1))
      ((pyGet fd t defaultEntry).2, sharpBright ops (pyGet fd t defaultEntry).2)
    have hqa : qualityAdjust ops fd fps t =
        ((pyRange (start_search fd fps t) (end_search fd fps t + 1)).foldl
          (searchStep ops fd)
          ((pyGet fd t defaultEntry).2, sharpBright ops (pyGet fd t defaultEntry).2)).1 := by
      unfold qualityAdjust
      rw [if_pos hpoor]
    rcases inv3 with heq | ⟨sj, hmem, hg, hp, hb, he⟩
    · refine Or.inr (Or.inl ⟨hpoor, ?_, by rw [hqa, heq]⟩)
      intro si hmemi hpi
      have hgi : si < (fd.length : ℤ) := mem_search_lt_len hmemi
      have h4 := inv2 si hmemi hgi hpi
      rw [heq] at h4
      exact h4
    · refine Or.inr (Or.inr ⟨hpoor, sj, hmem, hp, hb, by rw [hqa, he], ?_⟩)
      intro sk hmemk hpk
      have hgk : sk < (fd.length : ℤ) := mem_search_lt_len hmemk
      have h4 := inv2 sk hmemk hgk hpk
      rw [he] at h4
      exact h4

end VideoPipeline

namespace VideoPipeline

/-- C2 (amended): for a successful pipeline run and a role, if some window
position in the searched range of that role passes both thresholds with a
sharpness+brightness score strictly above the original frame score, then
the frame delivered for that role passes both thresholds. -/
theorem quality_pass_strict_improvement (ops : CvOps) (v : Video) (r : Role)
    (h1 : v.isOpened = true) (h2 : (2 : Frac) ≤ duration v)
    (h3 : 5 ≤ (frames_data v).length)
    (hx : ∃ si ∈ pyRange (start_search (frames_data v) v.fps (roleTarget ops v r))
        (end_search (frames_data v) v.fps (roleTarget ops v r) + 1),
      qualityPassed ops (pyGet (frames_data v) si defaultEntry).2 ∧
      sharpBright ops (pyGet (frames_data v) (roleTarget ops v r) defaultEntry).2 <
        sharpBright ops (pyGet (frames_data v) si defaultEntry).2) :
    ∃ out, extract_keyframes_from_video ops v = .ok out ∧
      out.getD (roleIndex r) [] = qualityAdjust ops (frames_data v) v.fps (roleTarget ops v r) ∧
      qualityPassed ops (out.getD (roleIndex r) []) := by
  have hqa : qualityPassed ops (qualityAdjust ops (frames_data v) v.fps (roleTarget ops v r)) := by
    by_cases hpoor : qualityPoor ops (pyGet (frames_data v) (roleTarget ops v r) defaultEntry).2
    · unfold qualityAdjust
      rw [if_pos hpoor]
      obtain ⟨si, hmem, hp, himp⟩ := hx
      have hg : si < ((frames_data v).length : ℤ) := mem_search_lt_len hmem
      obtain ⟨inv1, inv2, inv3⟩ := foldl_searchStep_inv ops (frames_data v)
        (pyRange (start_search (frames_data v) v.fps (roleTarget ops v r))
          (end_search (frames_data v) v.fps (roleTarget ops v r) + 1))
        ((pyGet (frames_data v) (roleTarget ops v r) defaultEntry).2,
          sharpBright ops (pyGet (frames_data v) (roleTarget ops v r) defaultEntry).2)
      have hscore := inv2 si hmem hg hp
      have hgt := Frac.lt_of_lt_of_le himp hscore
      rcases inv3 with heq | ⟨sj, hmemj, hgj, hpj, hbj, hej⟩
      · rw [heq] at hgt
        exact absurd hgt (Frac.lt_irrefl _)
      · rw [hej]
        exact hpj
    · unfold qualityAdjust
      rw [if_neg hpoor]
      exact not_qualityPoor_iff.mp hpoor
  have hgetD : ((role_order.map (roleTarget ops v)).map
      (qualityAdjust ops (frames_data v) v.fps)).getD (roleIndex r) [] =
      qualityAdjust ops (frames_data v) v.fps (roleTarget ops v r) := by
    cases r <;> rfl
  refine ⟨(role_order.map (roleTarget ops v)).map (qualityAdjust ops (frames_data v) v.fps),
    ?_, hgetD, ?_⟩
  · unfold extract_keyframes_from_video
    rw [if_neg (by simp [h1]), if_neg (Frac.not_lt.mpr h2), if_neg (by omega)]
  · rw [hgetD]
    exact hqa

/-- A 3-second, 5 fps video whose frame at window index i is the one-pixel
frame [i + 1] (the analysis window starts at absolute index 1). -/
def cexVid : Video :=
  { isOpened := true, fps := 5, total_frames := 15, read_frame := fun i => some [i.toNat] }

/-- Primitives under which the original F1 frame [2] is poor with a low
score (sharpness 0, brightness 10) while the nearby frame [3] passes
(sharpness 150, brightness 100). -/
def wOps2 : CvOps :=
  { gray := id, canny := fun _ _ g => g,
    lapVar := fun g => if g.headD 0 = 2 then 0 else if g.headD 0 = 4 then 0 else 150,
    mean := fun g => if g.headD 0 = 2 then 10 else if g.headD 0 = 4 then 0 else 100 }

/-- Witness for C2 (amended) at role F1 of a concrete run in which the
strictly better passing candidate exists and is adopted. -/
theorem quality_pass_strict_improvement_w :
    ∃ out, extract_keyframes_from_video wOps2 cexVid = .ok out ∧
      out.getD (roleIndex Role.F1) [] =
        qualityAdjust wOps2 (frames_data cexVid) cexVid.fps (roleTarget wOps2 cexVid Role.F1) ∧
      qualityPassed wOps2 (out.getD (roleIndex Role.F1) []) :=
  quality_pass_strict_improvement wOps2 cexVid Role.F1 rfl (by decide) (by decide)
    ⟨2, by decide, by decide, by decide⟩

/-- Primitives under which the original F1 frame [2] fails the thresholds
(brightness 250 > 220) but has a huge sharpness+brightness score 1250,
while the in-radius frame [3] passes with the smaller score 250. -/
def cexOps : CvOps :=
  { gray := id, canny := fun _ _ g => g,
    lapVar := fun g => if g.headD 0 = 2 then 1000 else if g.headD 0 = 4 then 0 else 150,
    mean := fun g => if g.headD 0 = 2 then 250 else if g.headD 0 = 4 then 0 else 100 }

/-- Counterexample to C2 as stated: a successful run in which the original
F1 frame (window position 1, frame [2]) fails the thresholds, the frame [2]
is delivered for F1 (head of the output) and still fails them, yet the
frame at window position 2 passes both thresholds and lies both within
plus/minus round(0.2 x fps) of the target and inside the searched range:
the code skipped it because its score 250 does not exceed the original
score 1250. -/
theorem pipeline_quality_invariant_cex :
    extract_keyframes_from_video cexOps cexVid = .ok [[2], [1], [2], [3], [11]] ∧
    roleTarget cexOps cexVid Role.F1 = 1 ∧
    qualityPoor cexOps (pyGet (frames_data cexVid) 1 defaultEntry).2 ∧
    qualityPassed cexOps (pyGet (frames_data cexVid) 2 defaultEntry).2 ∧
    (2 : ℤ) ∈ pyRange (start_search (frames_data cexVid) cexVid.fps 1)
      (end_search (frames_data cexVid) cexVid.fps 1 + 1) ∧
    |(2 : ℤ) - 1| ≤ roundNearest (tenths 2 * cexVid.fps) ∧
    qualityPoor cexOps [2] :=
  ⟨rfl, by decide, by decide, by decide, by decide, by decide, by decide⟩

/-- A 5-frame window whose absolute indices coincide with the window
positions, so the two possible readings of the search center agree. -/
def cfd3 : List (ℤ × Frame) := [(0, [10]), (1, [11]), (2, [12]), (3, [13]), (4, [14])]

/-- Primitives under which the original frame [11] fails (brightness
250 > 220) with score 1250 and the in-radius frame [12] passes with
score 250. -/
def cops3 : CvOps :=
  { gray := id, canny := fun _ _ g => g,
    lapVar := fun g => if g.headD 0 = 11 then 1000 else if g.headD 0 = 12 then 150 else 0,
    mean := fun g => if g.headD 0 = 11 then 250 else if g.headD 0 = 12 then 100 else 0 }

/-- Counterexample to C3 as stated: the original frame of the role fails the
thresholds and a candidate within the round(0.2 x fps) radius passes both
thresholds, so C3 demands that the (passing) best candidate be returned;
but the code keeps the failing original, because no passing candidate
strictly exceeds the original sharpness+brightness score. -/
theorem quality_search_cex :
    qualityAdjust cops3 cfd3 5 1 = [11] ∧
    qualityPoor cops3 [11] ∧
    qualityPassed cops3 (pyGet cfd3 2 defaultEntry).2 ∧
    (2 : ℤ) ∈ pyRange (start_search cfd3 5 1) (end_search cfd3 5 1 + 1) ∧
    |(2 : ℤ) - 1| ≤ roundNearest (tenths 2 * 5) ∧
    (pyGet cfd3 2 defaultEntry).2 ≠ [11] :=
  ⟨rfl, by decide, by decide, by decide, by decide, by decide⟩

/-- Modelled from the spec: `F2 = clamp(peak − round(0.30 × fps), 0, L−1)`,
with true rounding to the nearest integer. -/
def f2_idx_spec (fps : Frac) (len peak : ℕ) : ℤ :=
  min (max ((peak : ℤ) - roundNearest (tenths 3 * fps)) 0) ((len : ℤ) - 1)

/-- Modelled from the spec: `F4 = clamp(peak + round(0.30 × fps), 0, L−1)`,
with true rounding to the nearest integer. -/
def f4_idx_spec (fps : Frac) (len peak : ℕ) : ℤ :=
  min (max ((peak : ℤ) + roundNearest (tenths 3 * fps)) 0) ((len : ℤ) - 1)

/-- Counterexample to C5 as stated: at fps = 26 the source offset
`int(0.3 * 26) = int(7.8) = 7` differs from the claimed `round(7.8) = 8`,
so with window length 20 and peak 10 the code and the claim disagree on
both F2 and F4. -/
theorem f2_f4_round_cex :
    f2_idx 26 20 10 = 3 ∧ f2_idx_spec 26 20 10 = 2 ∧
    f4_idx 26 20 10 = 17 ∧ f4_idx_spec 26 20 10 = 18 ∧
    ¬ (f2_idx 26 20 10 = f2_idx_spec 26 20 10 ∧ f4_idx 26 20 10 = f4_idx_spec 26 20 10) :=
  ⟨by decide, by decide, by decide, by decide, by decide⟩

/-- C5 (amended): for nonnegative fps, the role targets computed at lines
342-343 and 350 equal `clamp(peak − trunc(0.30 × fps), 0, L−1)` and
`clamp(peak + trunc(0.30 × fps), 0, L−1)`, where trunc is the Python `int()`
truncation toward zero (not rounding to nearest). -/
theorem f2_f4_clamp_trunc (fps : Frac) (hfps : (0 : Frac) ≤ fps) (len peak : ℕ) :
    f2_idx fps len peak =
      min (max ((peak : ℤ) - pyInt (tenths 3 * fps)) 0) ((len : ℤ) - 1) ∧
    f4_idx fps len peak =
      min (max ((peak : ℤ) + pyInt (tenths 3 * fps)) 0) ((len : ℤ) - 1) := by
  have ht : 0 ≤ pyInt (tenths 3 * fps) := by
    apply pyInt_nonneg
    show 0 ≤ (3 : ℤ) * fps.num
    have h4 := Frac.num_nonneg_of_zero_le hfps
    omega
  constructor
  · unfold f2_idx
    omega
  · unfold f4_idx
    omega

/-- Witness for C5 (amended) at fps = 26, window length 20, peak 10. -/
theorem f2_f4_clamp_trunc_w :
    f2_idx 26 20 10 =
      min (max (((10 : ℕ) : ℤ) - pyInt (tenths 3 * 26)) 0) (((20 : ℕ) : ℤ) - 1) ∧
    f4_idx 26 20 10 =
      min (max (((10 : ℕ) : ℤ) + pyInt (tenths 3 * 26)) 0) (((20 : ℕ) : ℤ) - 1) :=
  f2_f4_clamp_trunc 26 (by decide) 20 10

end VideoPipeline
